import Mathlib

/-
Verification of the yosai authorization core: the wildcard permission model,
the indexed authorization info structure, the modular realm authorizer with
its all/any combinators and event emission, the event-driven cache-clear
fan-out, and the `DefaultSecurityManager` constructor from `yosai/mgt/mgt.py`.
-/

namespace Yosai

/-- Python exception classes that the modelled code can raise. -/
inductive PyError
  | invalidFormat
  | valueError
  | unauthorized
  | attributeError
  deriving DecidableEq, Repr

/-- Splits a character list on a separator; models Python `str.split(sep)`
restricted to one-character separators (the only separators used: `:`, `,`). -/
def splitCharList (sep : Char) : List Char → List (List Char)
  | [] => [[]]
  | c :: cs =>
    let r := splitCharList sep cs
    if c = sep then [] :: r
    else (c :: r.headD []) :: r.tail

/-- Models Python `s.split(sep)` for a one-character `sep`. -/
def splitStr (sep : Char) (s : String) : List String :=
  (splitCharList sep s.toList).map (fun cs => String.mk cs)

/-- Modelled from the spec: a `Permission` (the `DefaultPermission` class of
`yosai.core`, whose source is absent from src/) is an ordered list of parts
(domain, action, target), each part a set of string tokens, kept here as a
token list with set semantics. -/
abbrev Permission := List (List String)

/-- Modelled from the spec: `parse(text)` splits on `:`, then each part on
`,`; fails with `InvalidFormat` if the domain part is empty. -/
def parse (text : String) : Except PyError Permission :=
  let parts := (splitStr ':' text).map (fun p => splitStr ',' p)
  if parts.headD [] = [""] then Except.error PyError.invalidFormat
  else Except.ok parts

/-- Modelled from the spec: part `a` of the granting permission covers part
`b` of the requested one iff `a` holds the wildcard token or every token of
`b` is contained in `a`. -/
def partCovers (a b : List String) : Bool :=
  a.contains "*" || b.all (fun t => a.contains t)

/-- Modelled from the spec: `A.implies(B)` walks the paired parts; a position
present in `B` but beyond `A`'s explicit length is treated as wildcard. -/
def implies : Permission → Permission → Bool
  | _, [] => true
  | [], _ :: _ => true
  | a :: as, b :: bs => partCovers a b && implies as bs

/-- The spec's positional reading of implication: position `i` of `B` is
covered when `A` has no explicit part there, or `A`'s part holds the
wildcard, or every token of `B`'s part is a token of `A`'s part. -/
def coversAt (A B : Permission) (i : Nat) : Prop :=
  A.length ≤ i
    ∨ (A.getD i []).contains "*" = true
    ∨ ∀ t, (B.getD i []).contains t = true → (A.getD i []).contains t = true

/-! ## Indexed Authorization Info -/

/-- The domain tokens of a permission supplied in raw string form: the token
set of its first (`domain`) part. -/
def domainTokens (p : String) : List String :=
  splitStr ',' ((splitStr ':' p).headD "")

/-- The `_permissions` index: an association list from domain token to the
bucket of permissions stored under it (bucket with set semantics, modelling
Python `defaultdict(set)`). -/
abbrev PermIndex := List (String × List String)

/-- Dictionary lookup with `set()` default: models `_permissions.get(domain, set())`. -/
def lookupBucket : PermIndex → String → List String
  | [], _ => []
  | (k, b) :: rest, d => if k == d then b else lookupBucket rest d

/-- Models `_permissions[domain].add(permission)` on a `defaultdict(set)`: creates
the bucket when absent, never duplicates an entry within a bucket. -/
def insertPerm : PermIndex → String → String → PermIndex
  | [], d, p => [(d, [p])]
  | (k, b) :: rest, d, p =>
    if k == d then (k, if b.contains p then b else p :: b) :: rest
    else (k, b) :: insertPerm rest d p

/-- Modelled from the spec: `IndexedAuthorizationInfo` of `yosai.core` (source
absent from src/) holds the assigned role ids and the domain-indexed
permission multimap. -/
structure IndexedAuthorizationInfo where
  roles : List String
  perms : PermIndex

/-- Index a single permission: insert it under each of its domain tokens. -/
def indexOne (m : PermIndex) (p : String) : PermIndex :=
  (domainTokens p).foldl (fun acc d => insertPerm acc d p) m

/-- Modelled from the spec: `index_permission(perm_s)` — for each permission,
for each domain token in its domain part, insert the permission into
`_permissions[domain]`. -/
def index_permission (info : IndexedAuthorizationInfo) (perm_s : List String) :
    IndexedAuthorizationInfo :=
  { info with perms := perm_s.foldl indexOne info.perms }

/-- Modelled from the spec: `add_permission(perm_s)` delegates to
`index_permission`, merging into the existing index. -/
def add_permission (info : IndexedAuthorizationInfo) (perm_s : List String) :
    IndexedAuthorizationInfo :=
  index_permission info perm_s

/-- Modelled from the spec: `get_permissions(domain)` returns
`_permissions.get(domain, set())`; total, never raises. -/
def get_permissions (info : IndexedAuthorizationInfo) (domain : String) : List String :=
  lookupBucket info.perms domain

/-- Modelled from the spec: the `permissions` setter clears the index first,
then re-indexes the full replacement set. -/
def set_permissions (info : IndexedAuthorizationInfo) (perm_s : List String) :
    IndexedAuthorizationInfo :=
  index_permission { info with perms := [] } perm_s

/-- A fresh, empty `IndexedAuthorizationInfo`. -/
def freshInfo : IndexedAuthorizationInfo := ⟨[], []⟩

/-- Total number of stored (domain, permission) entries in the index. -/
def totalEntries (info : IndexedAuthorizationInfo) : Nat :=
  (info.perms.map (fun kv => kv.2.length)).sum

/-- The permission set of the spec's indexing scenario. -/
def scenarioPerms : List String :=
  ["domain1:action1:target1", "domain2:*:*", "domain1:action2:*"]

/-- The spec scenario: the three permissions indexed into a fresh instance. -/
def scenarioInfo : IndexedAuthorizationInfo :=
  index_permission freshInfo scenarioPerms

/-! ## Modular Realm Authorizer -/

/-- Identifiers (principal collections) are opaque caller-supplied tokens. -/
abbrev Ident := String

/-- A requested item: a permission (string form) or a role id. -/
abbrev Item := String

/-- Modelled from the spec: the realm capability contract consumed by the
authorizer — per-identity verdict sources for permission and role checks,
plus the optional `clear_cached_authorization_info` capability
(`clearCap = true` iff the realm exposes it). -/
structure Realm where
  grantsPerm : Ident → Item → Bool
  grantsRole : Ident → Item → Bool
  clearCap : Bool

instance : Inhabited Realm := ⟨⟨fun _ _ => false, fun _ _ => false, false⟩⟩

/-- A realm's `is_permitted(identities, permission_s)` generator: one
`(item, verdict)` pair per requested item, in input order. -/
def realmIsPermitted (r : Realm) (ids : Ident) (items : List Item) :
    List (Item × Bool) :=
  items.map (fun x => (x, r.grantsPerm ids x))

/-- A realm's `has_role(identities, roleid_s)` generator. -/
def realmHasRole (r : Realm) (ids : Ident) (items : List Item) :
    List (Item × Bool) :=
  items.map (fun x => (x, r.grantsRole ids x))

/-- The caller-supplied combinator: the Python builtin `all` or `any`. -/
inductive LogicalOp
  | opAll
  | opAny
  deriving DecidableEq, Repr

/-- Applying the builtin `all`/`any` to a list of booleans. -/
def applyOp : LogicalOp → List Bool → Bool
  | .opAll, bs => bs.all id
  | .opAny, bs => bs.any id

/-- A published event: topic plus payload
`{identities, items, logical_operator}` (`none` when not supplied). -/
structure Event where
  topic : String
  identifiers : Ident
  items : List Item
  logicalOp : Option LogicalOp
  deriving DecidableEq, Repr

/-- Modelled from the spec: the `ModularRealmAuthorizer` state — the ordered
realms tuple and whether an event bus is configured. -/
structure MRA where
  realms : List Realm
  eventBus : Bool

/-- Modelled from the spec: `notify_event(identities, items, topic,
logical_operator=None)` publishes `topic` with the payload on the event bus;
`AttributeError` when no bus is configured. -/
def notify_event (mra : MRA) (ids : Ident) (items : List Item) (topic : String)
    (logicalOp : Option LogicalOp) : Except PyError Event :=
  if mra.eventBus then Except.ok ⟨topic, ids, items, logicalOp⟩
  else Except.error PyError.attributeError

/-- Modelled from the spec: `assert_realms_configured()` fails with
`ValueError` if `realms` is empty/unset, returns `None` otherwise. -/
def assert_realms_configured (mra : MRA) : Except PyError Unit :=
  if mra.realms.isEmpty then Except.error PyError.valueError else Except.ok ()

/-- Modelled from the spec: `_is_permitted` — for every realm in tuple order,
delegate to the realm's `is_permitted` generator, concatenating all yielded
pairs without deduplication. -/
def isPermittedPairs (realms : List Realm) (ids : Ident) (items : List Item) :
    List (Item × Bool) :=
  realms.flatMap (fun r => realmIsPermitted r ids items)

/-- Modelled from the spec: `_has_role`, mirroring `_is_permitted`. -/
def hasRolePairs (realms : List Realm) (ids : Ident) (items : List Item) :
    List (Item × Bool) :=
  realms.flatMap (fun r => realmHasRole r ids items)

/-- OR-reduction of the concatenated pairs for one item key: true iff some
realm yielded `(x, True)`. -/
def orReduce (pairs : List (Item × Bool)) (x : Item) : Bool :=
  pairs.any (fun pr => pr.1 == x && pr.2)

/-- Publication of one event per result item (`is_permitted` with
`log_results`). -/
def notifyEach (mra : MRA) (ids : Ident) : List (Item × Bool) → Except PyError (List Event)
  | [] => Except.ok []
  | pr :: rest =>
    match notify_event mra ids [pr.1] "AUTHORIZATION.RESULTS" none with
    | Except.error e => Except.error e
    | Except.ok ev =>
      match notifyEach mra ids rest with
      | Except.error e => Except.error e
      | Except.ok evs => Except.ok (ev :: evs)

/-- Modelled from the spec: `is_permitted(identities, permission_s,
log_results)` — precondition `assert_realms_configured`, then the per
distinct-key OR-reduction of `_is_permitted`; publishes an event per item
when `log_results` is set. Returns the result set and the published events. -/
def is_permitted (mra : MRA) (ids : Ident) (items : List Item)
    (logResults : Bool) : Except PyError (List (Item × Bool) × List Event) :=
  match assert_realms_configured mra with
  | Except.error e => Except.error e
  | Except.ok _ =>
    let results :=
      items.dedup.map (fun x => (x, orReduce (isPermittedPairs mra.realms ids items) x))
    if logResults then
      match notifyEach mra ids results with
      | Except.error e => Except.error e
      | Except.ok evs => Except.ok (results, evs)
    else Except.ok (results, [])

/-- Modelled from the spec: `has_role`, mirroring `is_permitted` with the
role generator. -/
def has_role (mra : MRA) (ids : Ident) (items : List Item)
    (logResults : Bool) : Except PyError (List (Item × Bool) × List Event) :=
  match assert_realms_configured mra with
  | Except.error e => Except.error e
  | Except.ok _ =>
    let results :=
      items.dedup.map (fun x => (x, orReduce (hasRolePairs mra.realms ids items) x))
    if logResults then
      match notifyEach mra ids results with
      | Except.error e => Except.error e
      | Except.ok evs => Except.ok (results, evs)
    else Except.ok (results, [])

/-- Modelled from the spec: `is_permitted_collective` applies the logical
operator over the boolean components of `is_permitted`'s result and always
publishes a single aggregate GRANTED/DENIED event carrying the operator. -/
def is_permitted_collective (mra : MRA) (ids : Ident) (items : List Item)
    (op : LogicalOp) : Except PyError (Bool × List Event) :=
  match assert_realms_configured mra with
  | Except.error e => Except.error e
  | Except.ok _ =>
    match is_permitted mra ids items false with
    | Except.error e => Except.error e
    | Except.ok (results, _) =>
      let verdict := applyOp op (results.map (fun pr => pr.2))
      match notify_event mra ids items
          (if verdict then "AUTHORIZATION.GRANTED" else "AUTHORIZATION.DENIED")
          (some op) with
      | Except.error e => Except.error e
      | Except.ok ev => Except.ok (verdict, [ev])

/-- Modelled from the spec: `has_role_collective`, mirroring
`is_permitted_collective`. -/
def has_role_collective (mra : MRA) (ids : Ident) (items : List Item)
    (op : LogicalOp) : Except PyError (Bool × List Event) :=
  match assert_realms_configured mra with
  | Except.error e => Except.error e
  | Except.ok _ =>
    match has_role mra ids items false with
    | Except.error e => Except.error e
    | Except.ok (results, _) =>
      let verdict := applyOp op (results.map (fun pr => pr.2))
      match notify_event mra ids items
          (if verdict then "AUTHORIZATION.GRANTED" else "AUTHORIZATION.DENIED")
          (some op) with
      | Except.error e => Except.error e
      | Except.ok ev => Except.ok (verdict, [ev])

/-- Modelled from the spec: `check_permission` calls
`is_permitted_collective` (after the realms precondition) and fails with
`UnauthorizedException` iff the aggregate verdict is false; success is
silent. -/
def check_permission (mra : MRA) (ids : Ident) (items : List Item)
    (op : LogicalOp) : Except PyError (Unit × List Event) :=
  match assert_realms_configured mra with
  | Except.error e => Except.error e
  | Except.ok _ =>
    match is_permitted_collective mra ids items op with
    | Except.error e => Except.error e
    | Except.ok (verdict, evs) =>
      if verdict then Except.ok ((), evs)
      else Except.error PyError.unauthorized

/-- Modelled from the spec: `check_role`, mirroring `check_permission`. -/
def check_role (mra : MRA) (ids : Ident) (items : List Item)
    (op : LogicalOp) : Except PyError (Unit × List Event) :=
  match assert_realms_configured mra with
  | Except.error e => Except.error e
  | Except.ok _ =>
    match has_role_collective mra ids items op with
    | Except.error e => Except.error e
    | Except.ok (verdict, evs) =>
      if verdict then Except.ok ((), evs)
      else Except.error PyError.unauthorized

/-! ## Cache-invalidation protocol -/

/-- One `clear_cached_authorization_info` invocation, recorded as
(index of the realm in the realms tuple, identifier passed). -/
abbrev ClearCall := Nat × Ident

/-- Fan-out over the realms starting at tuple index `n`: every realm exposing
the clear capability is invoked once, in tuple order, with `ident`. -/
def clearCallsAux (ident : Ident) : Nat → List Realm → List ClearCall
  | _, [] => []
  | n, r :: rs =>
    (if r.clearCap then [(n, ident)] else []) ++ clearCallsAux ident (n + 1) rs

/-- Modelled from the spec: for every configured realm exposing a
`clear_cached_authorization_info` capability, invoke it with `ident`. -/
def clearCalls (mra : MRA) (ident : Ident) : List ClearCall :=
  clearCallsAux ident 0 mra.realms

/-- The payload object of a `SESSION.STOP` / `SESSION.EXPIRE` event. -/
structure SessionItems where
  identifier : Ident
  deriving DecidableEq, Repr

/-- Modelled from the spec: `session_clears_cache(items)` extracts
`items.identifier` and fans the clear out to every capable realm. -/
def session_clears_cache (mra : MRA) (items : SessionItems) : List ClearCall :=
  clearCalls mra items.identifier

/-- Modelled from the spec: `authc_clears_cache(identifier)` — the same
fan-out, given the identifier directly. -/
def authc_clears_cache (mra : MRA) (identifier : Ident) : List ClearCall :=
  clearCalls mra identifier

/-- The two listeners registered by `register_cache_clear_listener`. -/
inductive CacheClearListener
  | sessionListener
  | authcListener
  deriving DecidableEq, Repr

/-- Modelled from the spec: the subscriptions made by
`register_cache_clear_listener` on the injected event bus. -/
def cacheClearSubscriptions : List (CacheClearListener × String) :=
  [(.sessionListener, "SESSION.STOP"),
   (.sessionListener, "SESSION.EXPIRE"),
   (.authcListener, "AUTHENTICATION.SUCCEEDED")]

/-- Synchronous delivery of a single bus event with the given topic to the
registered cache-clear listeners, concatenating the clear calls every
subscribed listener makes. -/
def deliverCacheClearEvent (mra : MRA) (topic : String) (items : SessionItems) :
    List ClearCall :=
  (cacheClearSubscriptions.filter (fun s => s.2 == topic)).flatMap
    (fun s =>
      match s.1 with
      | .sessionListener => session_clears_cache mra items
      | .authcListener => authc_clears_cache mra items.identifier)

/-- A realm granting everything and exposing the clear capability. -/
def witnessRealm : Realm := ⟨fun _ _ => true, fun _ _ => true, true⟩

/-- A one-realm authorizer with a configured event bus. -/
def witnessMRA : MRA := ⟨[witnessRealm], true⟩

/-- The OR-reduced result set of `is_permitted` (one pair per distinct key). -/
def permResults (mra : MRA) (ids : Ident) (items : List Item) : List (Item × Bool) :=
  items.dedup.map (fun x => (x, orReduce (isPermittedPairs mra.realms ids items) x))

/-- The OR-reduced result set of `has_role`. -/
def roleResults (mra : MRA) (ids : Ident) (items : List Item) : List (Item × Bool) :=
  items.dedup.map (fun x => (x, orReduce (hasRolePairs mra.realms ids items) x))

/-- The authorizer with no realms configured. -/
def emptyMRA : MRA := ⟨[], true⟩

/-! ## DefaultSecurityManager construction (src/yosai/mgt/mgt.py) -/

/-- The attribute store of a `DefaultSecurityManager` instance during
construction: `none` models an attribute not yet assigned (Python raises
`AttributeError` on reading it). Only presence matters to the control flow
of `__init__`, so values are opaque. `realmsAttr` is the plain `realms`
attribute; the four underscored slots back the `event_bus`,
`cache_manager`, `authenticator` and `authorizer` properties;
`session_manager`, `subject_DAO` and `subject_factory` are the plain
attributes read by `get_dependencies_for_injection`. -/
structure DSMState where
  realmsAttr : Option Unit
  eventBusAttr : Option Unit
  cacheManagerAttr : Option Unit
  authenticatorAttr : Option Unit
  authorizerAttr : Option Unit
  sessionManagerAttr : Option Unit
  subjectDAOAttr : Option Unit
  subjectFactoryAttr : Option Unit
  deriving DecidableEq, Repr

/-- Reading a Python instance attribute: `AttributeError` when unset. -/
def readAttr (a : Option Unit) : Except PyError Unit :=
  match a with
  | some v => Except.ok v
  | none => Except.error PyError.attributeError

/-- Model of `get_dependencies_for_injection` (mgt.py lines 208-221): builds the set
`{self.event_bus, self.cache_manager, self.realms, self.authenticator,
self.authorizer, self.session_manager, self.subject_DAO,
self.subject_factory}`; the attribute reads are evaluated in source order,
each raising `AttributeError` if the backing slot is unset. -/
def get_dependencies_for_injection (s : DSMState) : Except PyError (List Unit) := do
  let eb ← readAttr s.eventBusAttr
  let cm ← readAttr s.cacheManagerAttr
  let rl ← readAttr s.realmsAttr
  let au ← readAttr s.authenticatorAttr
  let az ← readAttr s.authorizerAttr
  let sm ← readAttr s.sessionManagerAttr
  let sd ← readAttr s.subjectDAOAttr
  let sf ← readAttr s.subjectFactoryAttr
  return [eb, cm, rl, au, az, sm, sd, sf]

/-- The `event_bus` property setter (mgt.py lines 161-169): `DefaultEventBus()`
is truthy, so the setter stores it in `_event_bus` and then maps
`apply_event_bus` over `get_dependencies_for_injection(self._event_bus)`
(`apply_event_bus` itself only writes to the dependants, which is invisible
to this attribute-presence model). -/
def event_bus_setter (s : DSMState) : Except PyError DSMState := do
  let s1 := { s with eventBusAttr := some () }
  let _ ← get_dependencies_for_injection s1
  return s1

/-- The `cache_manager` property setter (mgt.py lines 144-154):
`DisabledCacheManager()` is truthy, so the setter stores it and maps
`apply_cache_manager` over `get_dependencies_for_injection(self.cache_manager)`. -/
def cache_manager_setter (s : DSMState) : Except PyError DSMState := do
  let s1 := { s with cacheManagerAttr := some () }
  let _ ← get_dependencies_for_injection s1
  return s1

/-- The `authenticator` property setter (mgt.py lines 111-124): stores the
truthy authenticator, reads `self.realms` (assigning it to the
authenticator), then `apply_event_bus` reads `self.event_bus` and
`apply_cache_manager` reads `self.cache_manager`. -/
def authenticator_setter (s : DSMState) : Except PyError DSMState := do
  let s1 := { s with authenticatorAttr := some () }
  let _ ← readAttr s1.realmsAttr
  let _ ← readAttr s1.eventBusAttr
  let _ ← readAttr s1.cacheManagerAttr
  return s1

/-- The `authorizer` property setter (mgt.py lines 130-138): stores the
truthy authorizer, then `apply_event_bus` reads `self.event_bus` and
`apply_cache_manager` reads `self.cache_manager`. -/
def authorizer_setter (s : DSMState) : Except PyError DSMState := do
  let s1 := { s with authorizerAttr := some () }
  let _ ← readAttr s1.eventBusAttr
  let _ ← readAttr s1.cacheManagerAttr
  return s1

/-- Model of `DefaultSecurityManager.__init__` (mgt.py lines 89-100), executed on an
instance with no attributes assigned: `self.realms = defaultdict(list)`,
then `self.event_bus = DefaultEventBus()` (a property assignment), then the
`cache_manager`, `authenticator` and `authorizer` property assignments, then
the plain assignments of `session_manager`, `subject_DAO` and
`subject_factory` (`remember_me_manager` is not read back by any modelled
code and is omitted from the state). -/

def DefaultSecurityManager_init : Except PyError DSMState := do
  let s0 : DSMState := ⟨none, none, none, none, none, none, none, none⟩
  let s1 := { s0 with realmsAttr := some () }
  let s2 ← event_bus_setter s1
  let s3 ← cache_manager_setter s2
  let s4 ← authenticator_setter s3
  let s5 ← authorizer_setter s4
  let s6 := { s5 with sessionManagerAttr := some (), subjectDAOAttr := some (),
                      subjectFactoryAttr := some () }
  return s6

/-! ## Theorems -/

theorem partCovers_iff (a b : List String) :
    partCovers a b = true ↔
      a.contains "*" = true ∨ ∀ t, b.contains t = true → a.contains t = true := by
  simp only [partCovers, Bool.or_eq_true, List.all_eq_true]
  constructor
  · rintro (h | h)
    · exact Or.inl h
    · exact Or.inr fun t ht => h t (List.elem_iff.mp ht)
  · rintro (h | h)
    · exact Or.inl h
    · exact Or.inr fun t ht => h t (List.elem_iff.mpr ht)

theorem implies_iff_coversAt (A B : Permission) :
    implies A B = true ↔ ∀ i, i < B.length → coversAt A B i := by
  induction B generalizing A with
  | nil =>
    cases A <;> simp [implies]
  | cons b bs ih =>
    cases A with
    | nil =>
      simp only [implies, true_iff]
      intro i _
      exact Or.inl (Nat.zero_le i)
    | cons a as =>
      simp only [implies, Bool.and_eq_true, ih, partCovers_iff]
      constructor
      · rintro ⟨hhead, htail⟩ i hi
        cases i with
        | zero =>
          rcases hhead with h | h
          · exact Or.inr (Or.inl h)
          · exact Or.inr (Or.inr h)
        | succ j =>
          have hj : j < bs.length := Nat.lt_of_succ_lt_succ hi
          rcases htail j hj with h | h | h
          · exact Or.inl (Nat.succ_le_succ h)
          · exact Or.inr (Or.inl h)
          · exact Or.inr (Or.inr h)
      · intro h
        constructor
        · rcases h 0 (Nat.succ_pos _) with h0 | h0 | h0
          · exact absurd h0 (by simp)
          · exact Or.inl h0
          · exact Or.inr h0
        · intro j hj
          rcases h (j + 1) (Nat.succ_lt_succ hj) with hc | hc | hc
          · exact Or.inl (Nat.le_of_succ_le_succ hc)
          · exact Or.inr (Or.inl hc)
          · exact Or.inr (Or.inr hc)

theorem star_implies_all (B : Permission) : implies [["*"]] B = true := by
  cases B with
  | nil => rfl
  | cons b bs =>
    simp only [implies, Bool.and_eq_true]
    exact ⟨by simp [partCovers], by cases bs <;> simp [implies]⟩

/-- C1: for permissions A and B obtained by `parse`, `A.implies(B)` holds iff
every part position present in B is covered by A (A exhausted, wildcard, or
token containment); the bare wildcard permission `*` implies every
permission; and a permission never implies a permission holding a token
absent from its own set at a non-wildcard position. -/
theorem c1_implies_characterization (sA sB : String) (A B : Permission)
    (hA : parse sA = Except.ok A) (hB : parse sB = Except.ok B) :
    ((implies A B = true ↔ ∀ i, i < B.length → coversAt A B i)
      ∧ (sA = "*" → implies A B = true))
      ∧ (∀ i t, i < B.length → i < A.length →
          (A.getD i []).contains "*" = false →
          (B.getD i []).contains t = true →
          (A.getD i []).contains t = false →
          implies A B = false) := by
  refine ⟨⟨implies_iff_coversAt A B, ?_⟩, ?_⟩
  · intro hstar
    subst hstar
    rw [show parse "*" = Except.ok [["*"]] from rfl] at hA
    injection hA with h
    subst h
    exact star_implies_all B
  · intro i t hiB hiA hstar hBt hAt
    cases himp : implies A B with
    | false => rfl
    | true =>
      have hc := (implies_iff_coversAt A B).mp himp i hiB
      rcases hc with hc | hc | hc
      · exact absurd hc (Nat.not_le.mpr hiA)
      · rw [hstar] at hc
        simp at hc
      · have h2 := hc t hBt
        rw [hAt] at h2
        simp at h2

/-- C1 witness: the theorem applied at `A = "*"`, `B = "domain1:action1"`. -/
theorem c1_implies_characterization_witness :
    implies [["*"]] [["domain1"], ["action1"]] = true :=
  (c1_implies_characterization "*" "domain1:action1" [["*"]] [["domain1"], ["action1"]]
      rfl rfl).1.2 rfl

theorem mem_lookupBucket_insertPerm (m : PermIndex) (d p d' e : String) :
    e ∈ lookupBucket (insertPerm m d p) d' ↔
      e ∈ lookupBucket m d' ∨ (e = p ∧ d' = d) := by
  induction m with
  | nil =>
    by_cases h : d = d'
    · subst h
      simp [insertPerm, lookupBucket]
    · have h' : d' ≠ d := fun hh => h hh.symm
      simp [insertPerm, lookupBucket, h, h']
  | cons kb rest ih =>
    obtain ⟨k, b⟩ := kb
    by_cases hkd : k = d
    · subst hkd
      by_cases hkd' : k = d'
      · subst hkd'
        by_cases hc : b.contains p
        · simp only [insertPerm, beq_self_eq_true, if_pos, lookupBucket, if_pos hc]
          constructor
          · exact fun h => Or.inl h
          · rintro (h | ⟨rfl, -⟩)
            · exact h
            · exact List.elem_iff.mp hc
        · simp only [insertPerm, beq_self_eq_true, if_pos, lookupBucket, if_neg hc,
            List.mem_cons]
          constructor
          · rintro (rfl | h)
            · exact Or.inr ⟨rfl, trivial⟩
            · exact Or.inl h
          · rintro (h | ⟨rfl, -⟩)
            · exact Or.inr h
            · exact Or.inl rfl
      · simp only [insertPerm, beq_self_eq_true, if_pos, lookupBucket, beq_iff_eq,
          if_neg hkd']
        exact ⟨fun h => Or.inl h, by
          rintro (h | ⟨rfl, rfl⟩)
          · exact h
          · exact absurd rfl hkd'⟩
    · by_cases hkd' : k = d'
      · subst hkd'
        simp only [insertPerm, beq_iff_eq, if_neg hkd, lookupBucket, beq_self_eq_true,
          if_pos]
        exact ⟨fun h => Or.inl h, by
          rintro (h | ⟨rfl, rfl⟩)
          · exact h
          · exact absurd rfl hkd⟩
      · simp only [insertPerm, beq_iff_eq, if_neg hkd, lookupBucket, if_neg hkd']
        exact ih

theorem mem_lookupBucket_indexOne (m : PermIndex) (p d e : String) :
    e ∈ lookupBucket (indexOne m p) d ↔
      e ∈ lookupBucket m d ∨ (e = p ∧ d ∈ domainTokens p) := by
  have general :
      ∀ (ds : List String) (m : PermIndex),
        e ∈ lookupBucket (ds.foldl (fun acc x => insertPerm acc x p) m) d ↔
          e ∈ lookupBucket m d ∨ (e = p ∧ d ∈ ds) := by
    intro ds
    induction ds with
    | nil => simp
    | cons x xs ih =>
      intro m
      simp only [List.foldl_cons, ih, mem_lookupBucket_insertPerm, List.mem_cons]
      constructor
      · rintro ((h | ⟨rfl, rfl⟩) | ⟨rfl, h⟩)
        · exact Or.inl h
        · exact Or.inr ⟨rfl, Or.inl rfl⟩
        · exact Or.inr ⟨rfl, Or.inr h⟩
      · rintro (h | ⟨rfl, rfl | h⟩)
        · exact Or.inl (Or.inl h)
        · exact Or.inl (Or.inr ⟨rfl, rfl⟩)
        · exact Or.inr ⟨rfl, h⟩
  exact general (domainTokens p) m

theorem mem_lookupBucket_foldl_indexOne (ps : List String) (m : PermIndex)
    (d e : String) :
    e ∈ lookupBucket (ps.foldl indexOne m) d ↔
      e ∈ lookupBucket m d ∨ (e ∈ ps ∧ d ∈ domainTokens e) := by
  induction ps generalizing m with
  | nil => simp
  | cons p ps ih =>
    simp only [List.foldl_cons, ih, mem_lookupBucket_indexOne, List.mem_cons]
    constructor
    · rintro ((h | ⟨rfl, h⟩) | ⟨h1, h2⟩)
      · exact Or.inl h
      · exact Or.inr ⟨Or.inl rfl, h⟩
      · exact Or.inr ⟨Or.inr h1, h2⟩
    · rintro (h | ⟨rfl | h1, h2⟩)
      · exact Or.inl (Or.inl h)
      · exact Or.inl (Or.inr ⟨rfl, h2⟩)
      · exact Or.inr ⟨h1, h2⟩

theorem mem_lookupBucket_foldl_add_permission (batches : List (List String))
    (info : IndexedAuthorizationInfo) (d e : String) :
    e ∈ lookupBucket (batches.foldl add_permission info).perms d ↔
      e ∈ lookupBucket info.perms d ∨ ((∃ b ∈ batches, e ∈ b) ∧ d ∈ domainTokens e) := by
  induction batches generalizing info with
  | nil => simp
  | cons ps bss ih =>
    simp only [List.foldl_cons, ih, add_permission, index_permission,
      mem_lookupBucket_foldl_indexOne, List.mem_cons]
    constructor
    · rintro ((h | ⟨h1, h2⟩) | ⟨⟨b, hb, he⟩, h2⟩)
      · exact Or.inl h
      · exact Or.inr ⟨⟨ps, Or.inl rfl, h1⟩, h2⟩
      · exact Or.inr ⟨⟨b, Or.inr hb, he⟩, h2⟩
    · rintro (h | ⟨⟨b, rfl | hb, he⟩, h2⟩)
      · exact Or.inl (Or.inl h)
      · exact Or.inl (Or.inr ⟨he, h2⟩)
      · exact Or.inr ⟨⟨b, hb, he⟩, h2⟩

/-- C8: after any sequence of `add_permission`/`index_permission` calls on a
fresh instance, a permission is stored under a domain key iff it was supplied
by some call and the key is one of its own domain tokens (reachable under
each of its own domain keys and under no others); the spec scenario yields
exactly 3 stored entries, the two domain1 entries under `domain1`, and the
empty set for a domain with no indexed permissions. -/
theorem c8_index_reachability (batches : List (List String)) (d e : String) :
    (e ∈ get_permissions (batches.foldl add_permission freshInfo) d ↔
      (∃ b ∈ batches, e ∈ b) ∧ d ∈ domainTokens e)
    ∧ totalEntries scenarioInfo = 3
    ∧ get_permissions scenarioInfo "domain1"
        = ["domain1:action2:*", "domain1:action1:target1"]
    ∧ get_permissions scenarioInfo "domainX" = [] := by
  refine ⟨?_, by decide, by decide, by decide⟩
  simpa [get_permissions, freshInfo, lookupBucket] using
    mem_lookupBucket_foldl_add_permission batches freshInfo d e

/-- C9: the `permissions` setter is a full replace — it clears the index and
then indexes exactly the replacement set, leaving nothing previously stored —
while `add_permission` only merges into the existing index. -/
theorem c9_setter_replaces_add_merges (info : IndexedAuthorizationInfo)
    (P : List String) (d e : String) :
    (set_permissions info P).perms = (index_permission freshInfo P).perms
    ∧ (e ∈ get_permissions (set_permissions info P) d ↔ e ∈ P ∧ d ∈ domainTokens e)
    ∧ (e ∈ get_permissions (add_permission info P) d ↔
        e ∈ get_permissions info d ∨ (e ∈ P ∧ d ∈ domainTokens e)) := by
  refine ⟨rfl, ?_, ?_⟩
  · simpa [get_permissions, set_permissions, index_permission, lookupBucket] using
      mem_lookupBucket_foldl_indexOne P [] d e
  · exact mem_lookupBucket_foldl_indexOne P info.perms d e

/-! ## Aggregation theorems -/

theorem orReduce_flatMap (f : Realm → Item → Bool) (realms : List Realm)
    (items : List Item) (x : Item) :
    orReduce (realms.flatMap (fun r => items.map (fun y => (y, f r y)))) x = true ↔
      x ∈ items ∧ ∃ r ∈ realms, f r x = true := by
  simp only [orReduce, List.any_eq_true, List.mem_flatMap, List.mem_map,
    Bool.and_eq_true, beq_iff_eq]
  constructor
  · rintro ⟨pr, ⟨r, hr, y, hy, rfl⟩, hx, hb⟩
    simp only at hx hb
    subst hx
    exact ⟨hy, r, hr, hb⟩
  · rintro ⟨hx, r, hr, hf⟩
    exact ⟨(x, f r x), ⟨r, hr, x, hx, rfl⟩, rfl, hf⟩

theorem mem_map_dedup_true (items : List Item) (g : Item → Bool) (x : Item)
    (hx : x ∈ items) :
    (x, true) ∈ items.dedup.map (fun y => (y, g y)) ↔ g x = true := by
  simp only [List.mem_map, List.mem_dedup]
  constructor
  · rintro ⟨y, hy, heq⟩
    injection heq with h1 h2
    subst h1
    exact h2
  · intro hg
    exact ⟨x, hx, by rw [hg]⟩

theorem assert_realms_configured_ok (mra : MRA) (hne : mra.realms ≠ []) :
    assert_realms_configured mra = Except.ok () := by
  simp [assert_realms_configured, List.isEmpty_iff, hne]

/-- C2: with a non-empty realms tuple, `is_permitted` / `has_role` report an
item as granted iff at least one realm grants it (logical OR across realms
per item); appending a realm that denies the item never turns an existing
grant into a denial. -/
theorem c2_or_across_realms (mra : MRA) (ids : Ident) (items : List Item)
    (x : Item) (r' : Realm) (hne : mra.realms ≠ []) (hx : x ∈ items) :
    (∃ res, is_permitted mra ids items false = Except.ok (res, [])
      ∧ ((x, true) ∈ res ↔ ∃ r ∈ mra.realms, r.grantsPerm ids x = true)
      ∧ ((x, true) ∈ res → r'.grantsPerm ids x = false →
          ∃ res2, is_permitted ⟨mra.realms ++ [r'], mra.eventBus⟩ ids items false
              = Except.ok (res2, [])
            ∧ (x, true) ∈ res2))
    ∧ (∃ res, has_role mra ids items false = Except.ok (res, [])
      ∧ ((x, true) ∈ res ↔ ∃ r ∈ mra.realms, r.grantsRole ids x = true)
      ∧ ((x, true) ∈ res → r'.grantsRole ids x = false →
          ∃ res2, has_role ⟨mra.realms ++ [r'], mra.eventBus⟩ ids items false
              = Except.ok (res2, [])
            ∧ (x, true) ∈ res2)) := by
  have hne2 : mra.realms ++ [r'] ≠ [] := by simp
  have hassert2 : assert_realms_configured ⟨mra.realms ++ [r'], mra.eventBus⟩ = Except.ok () :=
    assert_realms_configured_ok ⟨mra.realms ++ [r'], mra.eventBus⟩ hne2
  constructor
  · have heq : is_permitted mra ids items false
        = Except.ok (items.dedup.map
            (fun y => (y, orReduce (isPermittedPairs mra.realms ids items) y)), []) := by
      simp [is_permitted, assert_realms_configured_ok mra hne]
    refine ⟨_, heq, ?_, ?_⟩
    · rw [mem_map_dedup_true items _ x hx]
      rw [show isPermittedPairs mra.realms ids items
          = mra.realms.flatMap (fun r => items.map (fun y => (y, r.grantsPerm ids y)))
          from rfl]
      rw [orReduce_flatMap (fun r y => r.grantsPerm ids y) mra.realms items x]
      simp [hx]
    · intro hmem hdeny
      have heq2 : is_permitted ⟨mra.realms ++ [r'], mra.eventBus⟩ ids items false
          = Except.ok (items.dedup.map
              (fun y => (y, orReduce (isPermittedPairs (mra.realms ++ [r']) ids items) y)), []) := by
        simp [is_permitted, hassert2]
      refine ⟨_, heq2, ?_⟩
      rw [mem_map_dedup_true items _ x hx] at hmem ⊢
      rw [show isPermittedPairs mra.realms ids items
          = mra.realms.flatMap (fun r => items.map (fun y => (y, r.grantsPerm ids y)))
          from rfl] at hmem
      rw [orReduce_flatMap (fun r y => r.grantsPerm ids y) mra.realms items x] at hmem
      rw [show isPermittedPairs (mra.realms ++ [r']) ids items
          = (mra.realms ++ [r']).flatMap
              (fun r => items.map (fun y => (y, r.grantsPerm ids y)))
          from rfl]
      rw [orReduce_flatMap (fun r y => r.grantsPerm ids y) (mra.realms ++ [r']) items x]
      obtain ⟨hxin, r, hr, hg⟩ := hmem
      exact ⟨hxin, r, List.mem_append_left _ hr, hg⟩
  · have heq : has_role mra ids items false
        = Except.ok (items.dedup.map
            (fun y => (y, orReduce (hasRolePairs mra.realms ids items) y)), []) := by
      simp [has_role, assert_realms_configured_ok mra hne]
    refine ⟨_, heq, ?_, ?_⟩
    · rw [mem_map_dedup_true items _ x hx]
      rw [show hasRolePairs mra.realms ids items
          = mra.realms.flatMap (fun r => items.map (fun y => (y, r.grantsRole ids y)))
          from rfl]
      rw [orReduce_flatMap (fun r y => r.grantsRole ids y) mra.realms items x]
      simp [hx]
    · intro hmem hdeny
      have heq2 : has_role ⟨mra.realms ++ [r'], mra.eventBus⟩ ids items false
          = Except.ok (items.dedup.map
              (fun y => (y, orReduce (hasRolePairs (mra.realms ++ [r']) ids items) y)), []) := by
        simp [has_role, hassert2]
      refine ⟨_, heq2, ?_⟩
      rw [mem_map_dedup_true items _ x hx] at hmem ⊢
      rw [show hasRolePairs mra.realms ids items
          = mra.realms.flatMap (fun r => items.map (fun y => (y, r.grantsRole ids y)))
          from rfl] at hmem
      rw [orReduce_flatMap (fun r y => r.grantsRole ids y) mra.realms items x] at hmem
      rw [show hasRolePairs (mra.realms ++ [r']) ids items
          = (mra.realms ++ [r']).flatMap
              (fun r => items.map (fun y => (y, r.grantsRole ids y)))
          from rfl]
      rw [orReduce_flatMap (fun r y => r.grantsRole ids y) (mra.realms ++ [r']) items x]
      obtain ⟨hxin, r, hr, hg⟩ := hmem
      exact ⟨hxin, r, List.mem_append_left _ hr, hg⟩

/-- C2 witness: the theorem applied to a one-realm authorizer that grants
`perm1`. -/
theorem c2_or_across_realms_witness :
    ∃ res, is_permitted witnessMRA "identifiers" ["perm1"] false = Except.ok (res, [])
      ∧ ("perm1", true) ∈ res := by
  obtain ⟨res, heq, hiff, -⟩ :=
    (c2_or_across_realms witnessMRA "identifiers" ["perm1"] "perm1" witnessRealm
      (by simp [witnessMRA]) (by simp)).1
  exact ⟨res, heq, hiff.mpr ⟨witnessRealm, by simp [witnessMRA], rfl⟩⟩

theorem is_permitted_eq (mra : MRA) (ids : Ident) (items : List Item)
    (hne : mra.realms ≠ []) :
    is_permitted mra ids items false = Except.ok (permResults mra ids items, []) := by
  simp [is_permitted, assert_realms_configured_ok mra hne, permResults]

theorem has_role_eq (mra : MRA) (ids : Ident) (items : List Item)
    (hne : mra.realms ≠ []) :
    has_role mra ids items false = Except.ok (roleResults mra ids items, []) := by
  simp [has_role, assert_realms_configured_ok mra hne, roleResults]

theorem is_permitted_collective_eq (mra : MRA) (ids : Ident) (items : List Item)
    (op : LogicalOp) (hne : mra.realms ≠ []) (hbus : mra.eventBus = true) :
    is_permitted_collective mra ids items op
      = Except.ok (applyOp op ((permResults mra ids items).map (fun pr => pr.2)),
          [⟨if applyOp op ((permResults mra ids items).map (fun pr => pr.2))
              then "AUTHORIZATION.GRANTED" else "AUTHORIZATION.DENIED",
            ids, items, some op⟩]) := by
  simp [is_permitted_collective, assert_realms_configured_ok mra hne,
    is_permitted_eq mra ids items hne, notify_event, hbus]

theorem has_role_collective_eq (mra : MRA) (ids : Ident) (items : List Item)
    (op : LogicalOp) (hne : mra.realms ≠ []) (hbus : mra.eventBus = true) :
    has_role_collective mra ids items op
      = Except.ok (applyOp op ((roleResults mra ids items).map (fun pr => pr.2)),
          [⟨if applyOp op ((roleResults mra ids items).map (fun pr => pr.2))
              then "AUTHORIZATION.GRANTED" else "AUTHORIZATION.DENIED",
            ids, items, some op⟩]) := by
  simp [has_role_collective, assert_realms_configured_ok mra hne,
    has_role_eq mra ids items hne, notify_event, hbus]

theorem is_permitted_collective_busfail (mra : MRA) (ids : Ident)
    (items : List Item) (op : LogicalOp) (hne : mra.realms ≠ [])
    (hbus : mra.eventBus = false) :
    is_permitted_collective mra ids items op = Except.error PyError.attributeError := by
  simp [is_permitted_collective, assert_realms_configured_ok mra hne,
    is_permitted_eq mra ids items hne, notify_event, hbus]

theorem has_role_collective_busfail (mra : MRA) (ids : Ident)
    (items : List Item) (op : LogicalOp) (hne : mra.realms ≠ [])
    (hbus : mra.eventBus = false) :
    has_role_collective mra ids items op = Except.error PyError.attributeError := by
  simp [has_role_collective, assert_realms_configured_ok mra hne,
    has_role_eq mra ids items hne, notify_event, hbus]

theorem assert_realms_configured_empty (mra : MRA) (hr : mra.realms = []) :
    assert_realms_configured mra = Except.error PyError.valueError := by
  simp [assert_realms_configured, hr]

theorem is_permitted_collective_empty (mra : MRA) (ids : Ident)
    (items : List Item) (op : LogicalOp) (hr : mra.realms = []) :
    is_permitted_collective mra ids items op = Except.error PyError.valueError := by
  simp [is_permitted_collective, assert_realms_configured_empty mra hr]

theorem has_role_collective_empty (mra : MRA) (ids : Ident)
    (items : List Item) (op : LogicalOp) (hr : mra.realms = []) :
    has_role_collective mra ids items op = Except.error PyError.valueError := by
  simp [has_role_collective, assert_realms_configured_empty mra hr]

/-- C3: with realms configured and an event bus present,
`is_permitted_collective` returns the caller-supplied combinator applied over
the per-item booleans of `is_permitted`'s result (`all`: every item granted;
`any`: at least one) and publishes exactly one aggregate event — GRANTED when
the verdict is true, DENIED when false — carrying the operator used;
`has_role_collective` behaves identically for roles. -/
theorem c3_collective_events (mra : MRA) (ids : Ident) (items : List Item)
    (op : LogicalOp) (hne : mra.realms ≠ []) (hbus : mra.eventBus = true) :
    (∃ res b evs,
      is_permitted mra ids items false = Except.ok (res, [])
      ∧ is_permitted_collective mra ids items op = Except.ok (b, evs)
      ∧ b = applyOp op (res.map (fun pr => pr.2))
      ∧ evs.length = 1
      ∧ ∀ ev ∈ evs,
          ev.topic = (if b then "AUTHORIZATION.GRANTED" else "AUTHORIZATION.DENIED")
          ∧ ev.identifiers = ids ∧ ev.items = items ∧ ev.logicalOp = some op)
    ∧ (∃ res b evs,
      has_role mra ids items false = Except.ok (res, [])
      ∧ has_role_collective mra ids items op = Except.ok (b, evs)
      ∧ b = applyOp op (res.map (fun pr => pr.2))
      ∧ evs.length = 1
      ∧ ∀ ev ∈ evs,
          ev.topic = (if b then "AUTHORIZATION.GRANTED" else "AUTHORIZATION.DENIED")
          ∧ ev.identifiers = ids ∧ ev.items = items ∧ ev.logicalOp = some op)
    ∧ (∀ bs : List Bool,
        (applyOp LogicalOp.opAll bs = true ↔ ∀ v ∈ bs, v = true)
        ∧ (applyOp LogicalOp.opAny bs = true ↔ ∃ v ∈ bs, v = true)) := by
  refine ⟨?_, ?_, ?_⟩
  · refine ⟨permResults mra ids items, _, _, is_permitted_eq mra ids items hne,
      is_permitted_collective_eq mra ids items op hne hbus, rfl, rfl, ?_⟩
    intro ev hev
    rw [List.mem_singleton] at hev
    subst hev
    exact ⟨rfl, rfl, rfl, rfl⟩
  · refine ⟨roleResults mra ids items, _, _, has_role_eq mra ids items hne,
      has_role_collective_eq mra ids items op hne hbus, rfl, rfl, ?_⟩
    intro ev hev
    rw [List.mem_singleton] at hev
    subst hev
    exact ⟨rfl, rfl, rfl, rfl⟩
  · intro bs
    constructor
    · simp [applyOp]
    · simp [applyOp]

/-- C3 witness: the theorem applied to the one-realm witness authorizer. -/
theorem c3_collective_events_witness :
    ∃ b evs,
      is_permitted_collective witnessMRA "identifiers" ["perm1"] LogicalOp.opAny
        = Except.ok (b, evs) ∧ evs.length = 1 := by
  obtain ⟨⟨res, b, evs, -, hcol, -, hlen, -⟩, -, -⟩ :=
    c3_collective_events witnessMRA "identifiers" ["perm1"] LogicalOp.opAny
      (by simp [witnessMRA]) rfl
  exact ⟨b, evs, hcol, hlen⟩

/-- C4: `check_permission` raises `UnauthorizedException` exactly when
`is_permitted_collective` returns false and returns normally (no value) when
it returns true; `check_role` mirrors this against `has_role_collective`. -/
theorem c4_check_raises_iff_collective_false (mra : MRA) (ids : Ident)
    (items : List Item) (op : LogicalOp) :
    (check_permission mra ids items op = Except.error PyError.unauthorized ↔
      ∃ evs, is_permitted_collective mra ids items op = Except.ok (false, evs))
    ∧ (∀ evs, is_permitted_collective mra ids items op = Except.ok (true, evs) →
        check_permission mra ids items op = Except.ok ((), evs))
    ∧ (check_role mra ids items op = Except.error PyError.unauthorized ↔
      ∃ evs, has_role_collective mra ids items op = Except.ok (false, evs))
    ∧ (∀ evs, has_role_collective mra ids items op = Except.ok (true, evs) →
        check_role mra ids items op = Except.ok ((), evs)) := by
  by_cases hr : mra.realms = []
  · have h1 := is_permitted_collective_empty mra ids items op hr
    have h2 := has_role_collective_empty mra ids items op hr
    have h3 : check_permission mra ids items op = Except.error PyError.valueError := by
      simp [check_permission, assert_realms_configured_empty mra hr]
    have h4 : check_role mra ids items op = Except.error PyError.valueError := by
      simp [check_role, assert_realms_configured_empty mra hr]
    refine ⟨?_, ?_, ?_, ?_⟩ <;> simp [h1, h2, h3, h4]
  · cases hbus : mra.eventBus with
    | false =>
      have h1 := is_permitted_collective_busfail mra ids items op hr hbus
      have h2 := has_role_collective_busfail mra ids items op hr hbus
      have h3 : check_permission mra ids items op = Except.error PyError.attributeError := by
        simp [check_permission, assert_realms_configured_ok mra hr, h1]
      have h4 : check_role mra ids items op = Except.error PyError.attributeError := by
        simp [check_role, assert_realms_configured_ok mra hr, h2]
      refine ⟨?_, ?_, ?_, ?_⟩ <;> simp [h1, h2, h3, h4]
    | true =>
      have h1 := is_permitted_collective_eq mra ids items op hr hbus
      have h2 := has_role_collective_eq mra ids items op hr hbus
      have h3 : check_permission mra ids items op
          = (if applyOp op ((permResults mra ids items).map (fun pr => pr.2))
              then Except.ok ((),
                [⟨"AUTHORIZATION.GRANTED", ids, items, some op⟩])
              else Except.error PyError.unauthorized) := by
        by_cases hv : applyOp op ((permResults mra ids items).map (fun pr => pr.2)) <;>
          simp [check_permission, assert_realms_configured_ok mra hr, h1, hv]
      have h4 : check_role mra ids items op
          = (if applyOp op ((roleResults mra ids items).map (fun pr => pr.2))
              then Except.ok ((),
                [⟨"AUTHORIZATION.GRANTED", ids, items, some op⟩])
              else Except.error PyError.unauthorized) := by
        by_cases hv : applyOp op ((roleResults mra ids items).map (fun pr => pr.2)) <;>
          simp [check_role, assert_realms_configured_ok mra hr, h2, hv]
      refine ⟨?_, ?_, ?_, ?_⟩
      · by_cases hv : applyOp op ((permResults mra ids items).map (fun pr => pr.2)) <;>
          simp [h1, h3, hv]
      · intro evs hevs
        rw [h1] at hevs
        injection hevs with hpair
        have hv : applyOp op ((permResults mra ids items).map (fun pr => pr.2)) = true := by
          simpa using congrArg Prod.fst hpair
        have hl : [(⟨"AUTHORIZATION.GRANTED", ids, items, some op⟩ : Event)] = evs := by
          simpa [hv] using congrArg Prod.snd hpair
        rw [h3, if_pos hv, hl]
      · by_cases hv : applyOp op ((roleResults mra ids items).map (fun pr => pr.2)) <;>
          simp [h2, h4, hv]
      · intro evs hevs
        rw [h2] at hevs
        injection hevs with hpair
        have hv : applyOp op ((roleResults mra ids items).map (fun pr => pr.2)) = true := by
          simpa using congrArg Prod.fst hpair
        have hl : [(⟨"AUTHORIZATION.GRANTED", ids, items, some op⟩ : Event)] = evs := by
          simpa [hv] using congrArg Prod.snd hpair
        rw [h4, if_pos hv, hl]

/-- C4 witness: success is silent for the granting one-realm authorizer. -/
theorem c4_check_witness :
    check_permission witnessMRA "identifiers" ["perm1"] LogicalOp.opAll
      = Except.ok ((),
          [⟨"AUTHORIZATION.GRANTED", "identifiers", ["perm1"], some LogicalOp.opAll⟩]) := by
  refine (c4_check_raises_iff_collective_false witnessMRA "identifiers" ["perm1"]
      LogicalOp.opAll).2.1
    [⟨"AUTHORIZATION.GRANTED", "identifiers", ["perm1"], some LogicalOp.opAll⟩] ?_
  rw [is_permitted_collective_eq witnessMRA "identifiers" ["perm1"] LogicalOp.opAll
    (by simp [witnessMRA]) rfl]
  rfl

/-- C5: `assert_realms_configured` raises `ValueError` exactly when the
realms attribute is empty/unset and returns `None` otherwise; it is the
precondition of every public check/has/is operation — with no realms
configured, each operation fails with `ValueError` before any realm is
consulted. -/
theorem c5_assert_realms_precondition (mra : MRA) (ids : Ident)
    (items : List Item) (op : LogicalOp) :
    (assert_realms_configured mra = Except.error PyError.valueError ↔ mra.realms = [])
    ∧ (mra.realms ≠ [] → assert_realms_configured mra = Except.ok ())
    ∧ (mra.realms = [] →
        is_permitted mra ids items false = Except.error PyError.valueError
        ∧ is_permitted_collective mra ids items op = Except.error PyError.valueError
        ∧ check_permission mra ids items op = Except.error PyError.valueError
        ∧ has_role mra ids items false = Except.error PyError.valueError
        ∧ has_role_collective mra ids items op = Except.error PyError.valueError
        ∧ check_role mra ids items op = Except.error PyError.valueError) := by
  refine ⟨?_, fun hne => assert_realms_configured_ok mra hne, fun hr => ?_⟩
  · constructor
    · intro h
      by_cases hr : mra.realms = []
      · exact hr
      · rw [assert_realms_configured_ok mra hr] at h
        exact Except.noConfusion h
    · exact fun hr => assert_realms_configured_empty mra hr
  · refine ⟨?_, is_permitted_collective_empty mra ids items op hr, ?_, ?_,
      has_role_collective_empty mra ids items op hr, ?_⟩
    · simp [is_permitted, assert_realms_configured_empty mra hr]
    · simp [check_permission, assert_realms_configured_empty mra hr]
    · simp [has_role, assert_realms_configured_empty mra hr]
    · simp [check_role, assert_realms_configured_empty mra hr]

/-- C5 witness: the theorem applied to the empty-realms authorizer. -/
theorem c5_assert_realms_precondition_witness :
    is_permitted emptyMRA "identifiers" ["perm1"] false
      = Except.error PyError.valueError ∧
    check_permission emptyMRA "identifiers" ["perm1"] LogicalOp.opAll
      = Except.error PyError.valueError :=
  ⟨((c5_assert_realms_precondition emptyMRA "identifiers" ["perm1"]
      LogicalOp.opAll).2.2 rfl).1,
   ((c5_assert_realms_precondition emptyMRA "identifiers" ["perm1"]
      LogicalOp.opAll).2.2 rfl).2.2.1⟩

/-- C7: `notify_event` publishes the topic with payload
`{identities, items, logical_operator}` (`none` when not supplied) on the
configured bus, and raises `AttributeError` when no event bus is
configured. -/
theorem c7_notify_event_payload (mra : MRA) (ids : Ident) (items : List Item)
    (topic : String) (lop : Option LogicalOp) :
    (mra.eventBus = true →
      notify_event mra ids items topic lop = Except.ok ⟨topic, ids, items, lop⟩)
    ∧ (mra.eventBus = false →
      notify_event mra ids items topic lop = Except.error PyError.attributeError) := by
  constructor <;> intro h <;> simp [notify_event, h]

/-- C7 witness: a publish on the witness authorizer's configured bus, and the
failure on an authorizer with no bus. -/
theorem c7_notify_event_payload_witness :
    notify_event witnessMRA "identifiers" ["perm1"] "AUTHORIZATION.RESULTS" none
      = Except.ok ⟨"AUTHORIZATION.RESULTS", "identifiers", ["perm1"], none⟩ ∧
    notify_event ⟨[witnessRealm], false⟩ "identifiers" ["perm1"]
        "AUTHORIZATION.RESULTS" none
      = Except.error PyError.attributeError :=
  ⟨(c7_notify_event_payload witnessMRA "identifiers" ["perm1"]
      "AUTHORIZATION.RESULTS" none).1 rfl,
   (c7_notify_event_payload ⟨[witnessRealm], false⟩ "identifiers" ["perm1"]
      "AUTHORIZATION.RESULTS" none).2 rfl⟩

/-! ## Cache-clear fan-out theorems -/

theorem mem_clearCallsAux (ident : Ident) (n : Nat) (rs : List Realm) (c : ClearCall) :
    c ∈ clearCallsAux ident n rs ↔
      ∃ j, ∃ hj : j < rs.length, (rs.get ⟨j, hj⟩).clearCap = true ∧ c = (n + j, ident) := by
  induction rs generalizing n with
  | nil => simp [clearCallsAux]
  | cons r rest ih =>
    simp only [clearCallsAux, List.mem_append, ih]
    constructor
    · rintro (hc | ⟨j, hj, hcap, rfl⟩)
      · by_cases hcap : r.clearCap
        · rw [if_pos hcap, List.mem_singleton] at hc
          exact ⟨0, Nat.succ_pos _, by simpa using hcap, by simpa using hc⟩
        · rw [if_neg hcap] at hc
          exact absurd hc (List.not_mem_nil c)
      · refine ⟨j + 1, Nat.succ_lt_succ hj, by simpa using hcap, ?_⟩
        rw [show n + (j + 1) = (n + 1) + j from by omega]
    · rintro ⟨j, hj, hcap, rfl⟩
      cases j with
      | zero =>
        refine Or.inl ?_
        have hr : r.clearCap = true := by simpa using hcap
        rw [if_pos hr, List.mem_singleton, Nat.add_zero]
      | succ j =>
        refine Or.inr ⟨j, Nat.lt_of_succ_lt_succ hj, by simpa using hcap, ?_⟩
        rw [show n + (j + 1) = (n + 1) + j from by omega]

theorem count_clearCallsAux (ident : Ident) (n j : Nat) (rs : List Realm)
    (hj : j < rs.length) :
    (clearCallsAux ident n rs).count (n + j, ident)
      = if (rs.get ⟨j, hj⟩).clearCap then 1 else 0 := by
  induction rs generalizing n j with
  | nil => exact absurd hj (Nat.not_lt_zero j)
  | cons r rest ih =>
    simp only [clearCallsAux, List.count_append]
    cases j with
    | zero =>
      have hno : ((n + 0 : Nat), ident) ∉ clearCallsAux ident (n + 1) rest := by
        rw [mem_clearCallsAux]
        rintro ⟨j2, hj2, -, hpair⟩
        injection hpair with h1 h2
        omega
      rw [List.count_eq_zero.mpr hno]
      by_cases hcap : r.clearCap
      · rw [if_pos hcap]
        simp [hcap]
      · rw [if_neg hcap]
        simp [hcap]
    | succ j =>
      have hone : ((n + (j + 1) : Nat), ident)
          ∉ (if r.clearCap then [((n : Nat), ident)] else []) := by
        intro hmem
        by_cases hcap : r.clearCap
        · rw [if_pos hcap, List.mem_singleton] at hmem
          injection hmem with h1 h2
          omega
        · rw [if_neg hcap] at hmem
          exact List.not_mem_nil _ hmem
      rw [List.count_eq_zero.mpr hone, Nat.zero_add]
      rw [show n + (j + 1) = (n + 1) + j from by omega]
      rw [ih (n + 1) j (Nat.lt_of_succ_lt_succ hj)]
      simp

theorem deliver_session_stop_eq (mra : MRA) (items : SessionItems) :
    deliverCacheClearEvent mra "SESSION.STOP" items = session_clears_cache mra items := by
  simp [deliverCacheClearEvent, cacheClearSubscriptions]

/-- C6: delivering a single `SESSION.STOP` event to the registered
`session_clears_cache` listener produces exactly one
`clear_cached_authorization_info` call per realm exposing the capability,
each carrying the identifier of the event's items payload, and zero calls to
realms lacking the capability; `authc_clears_cache` performs the same
fan-out given the identifier directly. -/
theorem c6_cache_clear_fanout (mra : MRA) (items : SessionItems) (ident : Ident)
    (i : Nat) (hi : i < mra.realms.length) :
    ((deliverCacheClearEvent mra "SESSION.STOP" items).count (i, items.identifier)
      = if (mra.realms.get ⟨i, hi⟩).clearCap then 1 else 0)
    ∧ (∀ c ∈ deliverCacheClearEvent mra "SESSION.STOP" items,
        c.2 = items.identifier ∧ ∃ hj : c.1 < mra.realms.length,
          (mra.realms.get ⟨c.1, hj⟩).clearCap = true)
    ∧ deliverCacheClearEvent mra "SESSION.STOP" items = session_clears_cache mra items
    ∧ authc_clears_cache mra ident = clearCalls mra ident
    ∧ session_clears_cache mra items = clearCalls mra items.identifier := by
  refine ⟨?_, ?_, deliver_session_stop_eq mra items, rfl, rfl⟩
  · rw [deliver_session_stop_eq mra items]
    have h := count_clearCallsAux items.identifier 0 i mra.realms hi
    rw [Nat.zero_add] at h
    exact h
  · intro c hc
    rw [deliver_session_stop_eq mra items] at hc
    rw [session_clears_cache, clearCalls, mem_clearCallsAux] at hc
    obtain ⟨j, hj, hcap, rfl⟩ := hc
    rw [Nat.zero_add]
    exact ⟨rfl, hj, hcap⟩

/-- C6 witness: the theorem applied to the one-realm witness authorizer. -/
theorem c6_cache_clear_fanout_witness :
    (deliverCacheClearEvent witnessMRA "SESSION.STOP" ⟨"user123"⟩).count (0, "user123")
      = 1 := by
  have h := (c6_cache_clear_fanout witnessMRA ⟨"user123"⟩ "user123" 0
      (by simp [witnessMRA])).1
  simpa [witnessMRA, witnessRealm] using h

/-- C10: `DefaultSecurityManager()` always raises and never returns an
instance: during `__init__` the `event_bus` setter calls
`get_dependencies_for_injection`, which reads `self.cache_manager` before
`_cache_manager` has been assigned, so construction fails with
`AttributeError`. -/
theorem c10_default_security_manager_init_raises :
    DefaultSecurityManager_init = Except.error PyError.attributeError := by
  rfl

end Yosai
